import Mathlib

/-!
Verification development for the single-source attendance app
(`src/src/pages/index.js`).

The file shallowly embeds the IndexedDB record-store adapter
(`openDB`, `addRecord`, `getAllRecords`, `deleteRecord`, `deleteAllRecords`)
and the React component's handler logic (`handleDelete`, `handleClearAll`,
`handleSubmit`, `handleInputChange`, `handleStatusChange`,
`handleConfigChange`, `handleClearSignature`, `fetchRecords`, the
confirmation-timeout effects and the tab navigation) as pure functions over
an explicit application state, with user interactions and timer firings as
an event type driving a step function.

Modelling conventions:
* IndexedDB is modelled as a `Store`: a list of records in key (insertion)
  order plus the auto-increment key generator `nextId` (starts at 1, never
  reset by `clear()`, matching IndexedDB key-generator semantics).
* Storage failure is injected per call through `DBHealth`:
  `openFail` is a failure of `openDB` (caught by each adapter's
  `try`/`catch` and rethrown as `Error(IDB_ERROR_MESSAGE)`), while
  `opFail msg` is a failure of the IndexedDB request itself.  In the source
  each adapter `return`s the inner `Promise` from within the `try` block
  without `await`ing it, so a rejection of the request happens after the
  `async` function body has already completed and is NOT routed through the
  `catch` block: the raw storage error (message `msg`) propagates to the
  caller unconverted.  Only open-time failures become `IDB_ERROR_MESSAGE`.
* `Date.now()` is an explicit `now : Nat` argument; the real-time 5-second
  confirmation timers are abstract `timeout` events that are only enabled
  while the corresponding confirmation is pending (matching the `useEffect`
  guards); "second click before 5s" vs "timeout first" is event ordering.
* Async interleaving is sequentialized: a handler runs to completion
  (including its trailing `fetchRecords`) before the next event.
* The signature canvas is abstracted as the data-URL string `toDataURL`
  would produce; drawing sets it, `clearRect` resets it to a blank-canvas
  constant.  `localStorage` persistence of the event configuration is a
  side effect outside the modelled state.
-/

namespace Attendance

/-- Model of JavaScript's character class for `String.prototype.trim`
(restricted to the ASCII whitespace actually relevant to form input). -/
def isJsSpace (c : Char) : Bool :=
  c == ' ' || c == '\t' || c == '\n' || c == '\r'

/-- Model of JavaScript `String.prototype.trim`, used by `handleSubmit`'s
required-field validation. -/
def jsTrim (s : String) : String :=
  ⟨((s.toList.dropWhile isJsSpace).reverse.dropWhile isJsSpace).reverse⟩

/-- `chListLE p l` holds when `p` is an initial run of `l` (helper for
`jsIncludes`). -/
def chListLE : List Char → List Char → Bool
  | [], _ => true
  | _ :: _, [] => false
  | a :: as, b :: bs => a == b && chListLE as bs

/-- Helper for `jsIncludes`: does `pat` occur starting at some position of
the list? -/
def jsIncludesAux (pat : List Char) : List Char → Bool
  | [] => chListLE pat []
  | c :: rest => chListLE pat (c :: rest) || jsIncludesAux pat rest

/-- Model of JavaScript `String.prototype.includes` (substring test), used
by `fetchRecords` and the timer effects on the `message` state. -/
def jsIncludes (s pat : String) : Bool :=
  jsIncludesAux pat.toList s.toList

-- Message constants from the top of `index.js`.

def IDB_SUCCESS_MESSAGE : String := "Record saved successfully to IndexedDB."

def IDB_DELETE_MESSAGE : String := "Record deleted successfully."

def IDB_CLEAR_ALL_MESSAGE : String := "All records cleared successfully."

def IDB_ERROR_MESSAGE : String := "Could not access IndexedDB. Check console for details."

/-- The three optional status checkboxes (`formData.status`). -/
structure Status where
  pwd : Bool
  senior : Bool
  osy : Bool
deriving DecidableEq

/-- The form data held in the `formData` React state: four text-ish fields,
the status flags and the signature (a data URL once captured, `null`
before; modelled as `Option String`). -/
structure FormData where
  completeName : String
  sex : String
  designation : String
  division : String
  status : Status
  signature : Option String
deriving DecidableEq

/-- `initialFormData` from the source: empty texts, sex `'M'`, all flags
false, no signature. -/
def initialFormData : FormData :=
  { completeName := ""
    sex := "M"
    designation := ""
    division := ""
    status := { pwd := false, senior := false, osy := false }
    signature := none }

/-- A persisted attendance record: the submitted fields plus the
store-assigned `id` (auto-increment key) and the adapter-assigned
`timestamp` (`Date.now()` at insertion). -/
structure Record where
  id : Nat
  completeName : String
  sex : String
  designation : String
  division : String
  status : Status
  signature : Option String
  timestamp : Nat
deriving DecidableEq

/-- The IndexedDB object store `names`: records in key (= insertion) order
together with the auto-increment key generator.  IndexedDB key generators
start at 1 and are not reset by `clear()`. -/
structure Store where
  nextId : Nat
  records : List Record
deriving DecidableEq

/-- A freshly created store (`onupgradeneeded` creates the object store
empty, key generator at 1). -/
def emptyStore : Store := { nextId := 1, records := [] }

/-- Well-formedness that IndexedDB guarantees for the store: every stored
key is below the key generator, and keys are pairwise distinct. -/
def Store.WF (st : Store) : Prop :=
  (∀ r ∈ st.records, r.id < st.nextId) ∧
    st.records.Pairwise (fun a b => a.id ≠ b.id)

instance (st : Store) : Decidable st.WF := by
  unfold Store.WF; infer_instance

/-- Per-call health of the storage layer (see the module docstring for why
`opFail` bypasses the adapters' `catch` blocks). -/
inductive DBHealth
  | ok
  | openFail
  | opFail (msg : String)
deriving DecidableEq

/-- The record object built by `addRecord`:
`{ ...recordData, timestamp: Date.now() }` stored under the fresh
auto-increment key. -/
def mkRecord (d : FormData) (id now : Nat) : Record :=
  { id := id
    completeName := d.completeName
    sex := d.sex
    designation := d.designation
    division := d.division
    status := d.status
    signature := d.signature
    timestamp := now }

/-- `addRecord` from the source: opens the DB, adds
`{ ...recordData, timestamp: Date.now() }`; `store.add` assigns the next
auto-increment key and `request.result` (the new key) is resolved.
Open failure is converted to `IDB_ERROR_MESSAGE` by the `catch`; a failing
`add` request rejects with the raw storage error. -/
def addRecord (h : DBHealth) (recordData : FormData) (now : Nat)
    (store : Store) : Except String (Store × Nat) :=
  match h with
  | .openFail => .error IDB_ERROR_MESSAGE
  | .opFail m => .error m
  | .ok =>
      .ok ({ nextId := store.nextId + 1
             records := store.records ++ [mkRecord recordData store.nextId now] },
           store.nextId)

/-- `getAllRecords` from the source: `store.getAll()` returns the records
in key order and the success callback resolves `result.reverse()`
(newest first). -/
def getAllRecords (h : DBHealth) (store : Store) :
    Except String (List Record) :=
  match h with
  | .openFail => .error IDB_ERROR_MESSAGE
  | .opFail m => .error m
  | .ok => .ok store.records.reverse

/-- `deleteRecord` from the source: `store.delete(id)`.  An IndexedDB
`delete` request succeeds whether or not a record with that key exists. -/
def deleteRecord (h : DBHealth) (id : Nat) (store : Store) :
    Except String Store :=
  match h with
  | .openFail => .error IDB_ERROR_MESSAGE
  | .opFail m => .error m
  | .ok => .ok { store with records := store.records.filter (fun r => r.id != id) }

/-- `deleteAllRecords` from the source: `store.clear()` empties the object
store (the key generator is not reset). -/
def deleteAllRecords (h : DBHealth) (store : Store) : Except String Store :=
  match h with
  | .openFail => .error IDB_ERROR_MESSAGE
  | .opFail m => .error m
  | .ok => .ok { store with records := [] }

/-- C3: `getAllRecords` returns all stored records newest-first, i.e. the
reverse of insertion/key order: for any positions `i < j` in the stored
(insertion-ordered) list, the record inserted later (`j`) appears strictly
earlier in the result than the record inserted earlier (`i`); and on an
empty collection it returns the empty list rather than an error. -/
theorem getAllRecords_newest_first (st : Store) (i j : Nat)
    (hij : i < j) (hj : j < st.records.length) :
    getAllRecords .ok st = .ok st.records.reverse ∧
    (∀ n, getAllRecords .ok { nextId := n, records := [] } = .ok []) ∧
    (∃ i' j', j' < i' ∧ i' < st.records.reverse.length ∧
      j' < st.records.reverse.length ∧
      st.records.reverse[j']? = st.records[j]? ∧
      st.records.reverse[i']? = st.records[i]?) := by
  refine ⟨rfl, fun _ => rfl, st.records.length - 1 - i, st.records.length - 1 - j, ?_, ?_, ?_, ?_, ?_⟩
  · omega
  · simpa using by omega
  · simpa using by omega
  · rw [List.getElem?_reverse (by omega)]
    congr 1
    omega
  · rw [List.getElem?_reverse (by omega)]
    congr 1
    omega

/-- Witness for `getAllRecords_newest_first` at a concrete two-record
store. -/
theorem getAllRecords_newest_first_witness :
    getAllRecords .ok
        { nextId := 3,
          records := [mkRecord initialFormData 1 10, mkRecord initialFormData 2 20] } =
      .ok [mkRecord initialFormData 2 20, mkRecord initialFormData 1 10] ∧
    (∃ i' j', j' < i' ∧ i' < 2 ∧ j' < 2 ∧
      ([mkRecord initialFormData 1 10, mkRecord initialFormData 2 20].reverse[j']? =
        some (mkRecord initialFormData 2 20)) ∧
      ([mkRecord initialFormData 1 10, mkRecord initialFormData 2 20].reverse[i']? =
        some (mkRecord initialFormData 1 10))) := by
  have h := getAllRecords_newest_first
    { nextId := 3,
      records := [mkRecord initialFormData 1 10, mkRecord initialFormData 2 20] }
    0 1 (by decide) (by decide)
  refine ⟨h.1, ?_⟩
  obtain ⟨i', j', h1, h2, h3, h4, h5⟩ := h.2.2
  exact ⟨i', j', h1, by simpa using h2, by simpa using h3, by simpa using h4,
    by simpa using h5⟩

/-- C4: inserting a record that lacks `id`/`timestamp` into a well-formed
store assigns `timestamp = now` (the insertion time), a fresh unique
auto-incremented `id` (the key generator's value, distinct from every
stored id), returns that id, keeps the store well-formed, and a subsequent
`getAllRecords` yields the new record first with every submitted field
unchanged. -/
theorem addRecord_assigns_fresh_id (st : Store) (d : FormData) (now : Nat)
    (hwf : st.WF) :
    addRecord .ok d now st =
      .ok ({ nextId := st.nextId + 1
             records := st.records ++ [mkRecord d st.nextId now] },
           st.nextId) ∧
    (∀ r ∈ st.records, r.id ≠ st.nextId) ∧
    Store.WF { nextId := st.nextId + 1
               records := st.records ++ [mkRecord d st.nextId now] } ∧
    getAllRecords .ok
        { nextId := st.nextId + 1
          records := st.records ++ [mkRecord d st.nextId now] } =
      .ok (mkRecord d st.nextId now :: st.records.reverse) ∧
    (mkRecord d st.nextId now).id = st.nextId ∧
    (mkRecord d st.nextId now).timestamp = now ∧
    (mkRecord d st.nextId now).completeName = d.completeName ∧
    (mkRecord d st.nextId now).sex = d.sex ∧
    (mkRecord d st.nextId now).designation = d.designation ∧
    (mkRecord d st.nextId now).division = d.division ∧
    (mkRecord d st.nextId now).status = d.status ∧
    (mkRecord d st.nextId now).signature = d.signature := by
  obtain ⟨hlt, hpair⟩ := hwf
  have hfresh : ∀ r ∈ st.records, r.id ≠ st.nextId := by
    intro r hr
    exact Nat.ne_of_lt (hlt r hr)
  refine ⟨rfl, hfresh, ⟨?_, ?_⟩, ?_, rfl, rfl, rfl, rfl, rfl, rfl, rfl, rfl⟩
  · intro r hr
    rcases List.mem_append.mp hr with h | h
    · exact Nat.lt_succ_of_lt (hlt r h)
    · simp only [List.mem_singleton] at h
      subst h
      exact Nat.lt_succ_self _
  · refine List.pairwise_append.mpr ⟨hpair, List.pairwise_singleton _ _, ?_⟩
    intro a ha b hb
    simp only [List.mem_singleton] at hb
    subst hb
    exact hfresh a ha
  · simp [getAllRecords]

/-- Witness for `addRecord_assigns_fresh_id` at the empty store. -/
theorem addRecord_assigns_fresh_id_witness :
    addRecord .ok initialFormData 5 emptyStore =
      .ok ({ nextId := 2, records := [mkRecord initialFormData 1 5] }, 1) ∧
    (mkRecord initialFormData 1 5).timestamp = 5 := by
  have h := addRecord_assigns_fresh_id emptyStore initialFormData 5 (by decide)
  exact ⟨h.1, h.2.2.2.2.2.1⟩

/-- C5: `deleteRecord` is idempotent.  It always succeeds (an IndexedDB
`delete` request succeeds whether or not the key is present), deleting an
absent id is a no-op, and a second `deleteRecord` for the same id succeeds
with no further change to the collection. -/
theorem deleteRecord_idempotent (st : Store) (id : Nat) :
    deleteRecord .ok id st =
      .ok { st with records := st.records.filter (fun r => r.id != id) } ∧
    ((∀ r ∈ st.records, r.id ≠ id) → deleteRecord .ok id st = .ok st) ∧
    deleteRecord .ok id
        { st with records := st.records.filter (fun r => r.id != id) } =
      .ok { st with records := st.records.filter (fun r => r.id != id) } := by
  refine ⟨rfl, ?_, ?_⟩
  · intro habs
    simp only [deleteRecord]
    congr 1
    have : st.records.filter (fun r => r.id != id) = st.records := by
      apply List.filter_eq_self.mpr
      intro r hr
      simpa using habs r hr
    calc { st with records := st.records.filter (fun r => r.id != id) }
        = { st with records := st.records } := by rw [this]
      _ = st := rfl
  · simp only [deleteRecord]
    congr 1
    have : (st.records.filter (fun r => r.id != id)).filter (fun r => r.id != id) =
        st.records.filter (fun r => r.id != id) := by
      apply List.filter_eq_self.mpr
      intro r hr
      exact (List.mem_filter.mp hr).2
    rw [this]

/-- Witness for `deleteRecord_idempotent`: deleting the absent id 5 from a
one-record store is a no-op, and repeating a deletion changes nothing. -/
theorem deleteRecord_idempotent_witness :
    deleteRecord .ok 5 { nextId := 2, records := [mkRecord initialFormData 1 7] } =
      .ok { nextId := 2, records := [mkRecord initialFormData 1 7] } ∧
    deleteRecord .ok 1 { nextId := 2, records := [] } =
      .ok { nextId := 2, records := [] } := by
  constructor
  · exact (deleteRecord_idempotent
      { nextId := 2, records := [mkRecord initialFormData 1 7] } 5).2.1 (by decide)
  · have h := (deleteRecord_idempotent
      { nextId := 2, records := [mkRecord initialFormData 1 7] } 1).2.2
    simpa using h

-- ---------------------------------------------------------------------
-- Application state and handlers
-- ---------------------------------------------------------------------

/-- The three views selected by the navigation tabs. -/
inductive Page
  | setup
  | form
  | records
deriving DecidableEq

/-- The event configuration singleton (`eventConfig` state, persisted into
`localStorage`). -/
structure EventConfig where
  activityName : String
  venue : String
  eventDate : String
deriving DecidableEq

/-- The abstract data-URL content of a cleared signature canvas (what
`toDataURL` returns right after `clearRect`). -/
def blankCanvasData : String := "data:image/png;base64,blank"

/-- The React component state of `App`, plus the modelled IndexedDB store.
`canvas` abstracts the canvas bitmap as the data-URL string `toDataURL`
would produce. -/
structure AppState where
  formData : FormData
  storedRecords : List Record
  eventConfig : EventConfig
  message : String
  isDBReady : Bool
  confirmClear : Bool
  confirmDeleteId : Option Nat
  currentPage : Page
  signatureCaptured : Bool
  canvas : String
  store : Store
deriving DecidableEq

/-- The initial `App` state on mount: `initialFormData`, no records loaded
yet, empty message, DB not yet ready, both confirmations clear, the
`setup` tab.  The persisted store contents and the configuration loaded
from `localStorage` are parameters. -/
def initState (store : Store) (cfg : EventConfig) : AppState :=
  { formData := initialFormData
    storedRecords := []
    eventConfig := cfg
    message := ""
    isDBReady := false
    confirmClear := false
    confirmDeleteId := none
    currentPage := .setup
    signatureCaptured := false
    canvas := blankCanvasData
    store := store }

/-- `fetchRecords` from the source: on success stores the (reversed)
records, marks the DB ready and clears the message unless it contains
`'success'`, `'confirm'` or `'SURE'`; on failure sets the generic
`IDB_ERROR_MESSAGE` and marks the DB not ready. -/
def fetchRecords (h : DBHealth) (s : AppState) : AppState :=
  match getAllRecords h s.store with
  | .ok records =>
      let s' := { s with storedRecords := records, isDBReady := true }
      if !(jsIncludes s'.message "success") && !(jsIncludes s'.message "confirm")
          && !(jsIncludes s'.message "SURE") then
        { s' with message := "" }
      else s'
  | .error _ => { s with message := IDB_ERROR_MESSAGE, isDBReady := false }

/-- The four fields dispatched through `handleInputChange` by their
`name` attribute. -/
inductive InputField
  | completeName
  | sex
  | designation
  | division
deriving DecidableEq

/-- `{ ...prev, [name]: value }` for the text/radio inputs. -/
def FormData.setField (d : FormData) (f : InputField) (v : String) : FormData :=
  match f with
  | .completeName => { d with completeName := v }
  | .sex => { d with sex := v }
  | .designation => { d with designation := v }
  | .division => { d with division := v }

/-- `handleInputChange`: updates the named form field and resets both
delete confirmations. -/
def handleInputChange (f : InputField) (v : String) (s : AppState) : AppState :=
  { s with formData := s.formData.setField f v
           confirmClear := false
           confirmDeleteId := none }

/-- The three status checkboxes dispatched through `handleStatusChange`. -/
inductive StatusField
  | pwd
  | senior
  | osy
deriving DecidableEq

/-- `{ ...prev.status, [name]: checked }`. -/
def Status.setFlag (st : Status) (f : StatusField) (b : Bool) : Status :=
  match f with
  | .pwd => { st with pwd := b }
  | .senior => { st with senior := b }
  | .osy => { st with osy := b }

/-- `handleStatusChange`: updates the named status flag and resets both
delete confirmations. -/
def handleStatusChange (f : StatusField) (b : Bool) (s : AppState) : AppState :=
  { s with formData := { s.formData with status := s.formData.status.setFlag f b }
           confirmClear := false
           confirmDeleteId := none }

/-- The three event-configuration fields dispatched through
`handleConfigChange`. -/
inductive ConfigField
  | activityName
  | venue
  | eventDate
deriving DecidableEq

/-- `{ ...eventConfig, [name]: value }`. -/
def EventConfig.setField (c : EventConfig) (f : ConfigField) (v : String) :
    EventConfig :=
  match f with
  | .activityName => { c with activityName := v }
  | .venue => { c with venue := v }
  | .eventDate => { c with eventDate := v }

/-- `handleConfigChange`: updates the named configuration field (and
persists it to `localStorage`, a side effect outside the modelled state).
Note: it does NOT touch `confirmClear` or `confirmDeleteId`. -/
def handleConfigChange (f : ConfigField) (v : String) (s : AppState) : AppState :=
  { s with eventConfig := s.eventConfig.setField f v }

/-- `handleClearSignature`: clears the canvas and marks the signature as
not captured. -/
def handleClearSignature (s : AppState) : AppState :=
  { s with signatureCaptured := false, canvas := blankCanvasData }

/-- `storedRecords.find(r => r.id === id)?.completeName` (the optional
chaining yields the string `"undefined"` in the template literal when no
displayed record matches). -/
def foundName (records : List Record) (id : Nat) : String :=
  match records.find? (fun r => r.id == id) with
  | some r => r.completeName
  | none => "undefined"

/-- The per-record first-click confirmation message built in
`handleDelete`. -/
def deleteConfirmMessage (recordName : String) : String :=
  "Click the icon again next to \"" ++ recordName ++
    "\" to CONFIRM deletion. This action is irreversible."

/-- The clear-all first-click confirmation message. -/
def CLEAR_ALL_CONFIRM_MESSAGE : String :=
  "ARE YOU SURE? Click this button again to CONFIRM deleting ALL records."

/-- `handleDelete` from the source.  Second click on the pending id runs
`deleteRecord`; on success it sets the delete message, resets the pending
id and refreshes via `fetchRecords`; on failure it only sets
`error.message || 'Error deleting record.'` (the pending id is NOT
reset).  A first click (or a click on a different id) sets the
confirmation message, makes the id pending and clears the bulk
confirmation. -/
def handleDelete (id : Nat) (hdel hfetch : DBHealth) (s : AppState) : AppState :=
  if s.isDBReady then
    if s.confirmDeleteId = some id then
      match deleteRecord hdel id s.store with
      | .ok st' =>
          fetchRecords hfetch
            { s with store := st'
                     message := IDB_DELETE_MESSAGE
                     confirmDeleteId := none }
      | .error m =>
          { s with message := if m = "" then "Error deleting record." else m }
    else
      { s with message := deleteConfirmMessage (foundName s.storedRecords id)
               confirmDeleteId := some id
               confirmClear := false }
  else s

/-- `handleClearAll` from the source.  Second click runs
`deleteAllRecords`; on success it sets the clear-all message, resets both
confirmations and refreshes; on failure it only sets
`error.message || 'Error clearing all records.'` (the bulk confirmation is
NOT reset).  A first click sets the warning, makes the bulk confirmation
pending and resets the per-record confirmation. -/
def handleClearAll (hdel hfetch : DBHealth) (s : AppState) : AppState :=
  if s.isDBReady then
    if s.confirmClear then
      match deleteAllRecords hdel s.store with
      | .ok st' =>
          fetchRecords hfetch
            { s with store := st'
                     message := IDB_CLEAR_ALL_MESSAGE
                     confirmClear := false
                     confirmDeleteId := none }
      | .error m =>
          { s with message := if m = "" then "Error clearing all records." else m }
    else
      { s with message := CLEAR_ALL_CONFIRM_MESSAGE
               confirmClear := true
               confirmDeleteId := none }
  else s

/-- `handleSubmit` from the source, sequentialized.  Returns the new state
and whether the adapter's `addRecord` was invoked.  Validation order as in
the code: required text fields (note: `sex` is not checked), then
signature, then DB readiness; only then is `addRecord` called with the
form data plus the captured canvas data URL.  On success the form and
canvas are reset, the success message is set, the list is refreshed and
both confirmations are reset; on failure `error.message ||
IDB_ERROR_MESSAGE` is shown. -/
def handleSubmit (h hfetch : DBHealth) (now : Nat) (s : AppState) :
    AppState × Bool :=
  if jsTrim s.formData.completeName = "" ∨ jsTrim s.formData.designation = ""
      ∨ jsTrim s.formData.division = "" then
    ({ s with message := "Please fill in all required fields (indicated by *)." },
     false)
  else if !s.signatureCaptured then
    ({ s with message := "Please provide a signature in section 6." }, false)
  else if !s.isDBReady then
    ({ s with message := "Database not ready. Cannot save." }, false)
  else
    match addRecord h { s.formData with signature := some s.canvas } now s.store with
    | .ok (st', _) =>
        let s' := fetchRecords hfetch
          { s with store := st'
                   formData := initialFormData
                   signatureCaptured := false
                   canvas := blankCanvasData
                   message := IDB_SUCCESS_MESSAGE }
        ({ s' with confirmClear := false, confirmDeleteId := none }, true)
    | .error m =>
        ({ s with message := if m = "" then IDB_ERROR_MESSAGE else m }, true)

/-- The 5-second auto-reset timer for the bulk confirmation (`useEffect`
on `confirmClear`): only armed while `confirmClear` is set. -/
def timeoutClearStep (s : AppState) : AppState :=
  if s.confirmClear then { s with confirmClear := false } else s

/-- The 5-second auto-reset timer for the per-record confirmation
(`useEffect` on `confirmDeleteId`): only armed while an id is pending;
clears the message only if it contains `'Click the trash icon again'`
(the actual confirmation message says "Click the icon again", so this
never matches it). -/
def timeoutDeleteStep (s : AppState) : AppState :=
  if s.confirmDeleteId ≠ none then
    let s' := { s with confirmDeleteId := none }
    if jsIncludes s'.message "Click the trash icon again" then
      { s' with message := "" }
    else s'
  else s

/-- The 3-second success-message timer (`useEffect` on `message`). -/
def timeoutMsgStep (s : AppState) : AppState :=
  if jsIncludes s.message "success" then { s with message := "" } else s

/-- The navigation tab buttons; the `Saved Records` tab also resets both
confirmations. -/
def gotoPage (p : Page) (s : AppState) : AppState :=
  match p with
  | .records => { s with currentPage := .records
                         confirmClear := false
                         confirmDeleteId := none }
  | p => { s with currentPage := p }

/-- The three free-text inputs (the `sex` radio group is separate: its two
buttons are hard-wired to the values `"M"` and `"F"` in the source). -/
inductive TextField
  | completeName
  | designation
  | division
deriving DecidableEq

/-- The `name` attribute a text input passes to `handleInputChange`. -/
def TextField.toInput : TextField → InputField
  | .completeName => .completeName
  | .designation => .designation
  | .division => .division

/-- User interactions and timer firings.  Events carrying a `DBHealth`
model the per-call health of the storage layer for the adapter call(s) the
handler makes (the destructive/insert call and the trailing
`fetchRecords`).  `editSex` carries a `Bool` because the two radio buttons
in the source are hard-wired to the values `"M"` and `"F"`. -/
inductive Event
  | load (h : DBHealth)
  | editText (f : TextField) (v : String)
  | editSex (male : Bool)
  | editStatus (f : StatusField) (b : Bool)
  | editConfig (f : ConfigField) (v : String)
  | clearSig
  | drawSig (d : String)
  | submit (h hf : DBHealth) (now : Nat)
  | deleteClick (id : Nat) (h hf : DBHealth)
  | clearAllClick (h hf : DBHealth)
  | timeoutDelete
  | timeoutClear
  | timeoutMsg
  | goto (p : Page)
deriving DecidableEq

/-- One step of the application: dispatches an event to the corresponding
handler.  Form inputs, the signature canvas and the clear-signature button
are `disabled`/inert while the DB is not ready, matching the `disabled`
attributes and the `startDrawing` guard in the source; the configuration
inputs are not disabled. -/
def step (e : Event) (s : AppState) : AppState :=
  match e with
  | .load h => fetchRecords h s
  | .editText f v => if s.isDBReady then handleInputChange f.toInput v s else s
  | .editSex male =>
      if s.isDBReady then handleInputChange .sex (if male then "M" else "F") s
      else s
  | .editStatus f b => if s.isDBReady then handleStatusChange f b s else s
  | .editConfig f v => handleConfigChange f v s
  | .clearSig => if s.isDBReady then handleClearSignature s else s
  | .drawSig d =>
      if s.isDBReady then { s with signatureCaptured := true, canvas := d } else s
  | .submit h hf now => (handleSubmit h hf now s).1
  | .deleteClick id h hf => handleDelete id h hf s
  | .clearAllClick h hf => handleClearAll h hf s
  | .timeoutDelete => timeoutDeleteStep s
  | .timeoutClear => timeoutClearStep s
  | .timeoutMsg => timeoutMsgStep s
  | .goto p => gotoPage p s

/-- Run a sequence of events. -/
def run (es : List Event) (s : AppState) : AppState :=
  es.foldl (fun s e => step e s) s

-- Concrete sample data used by witnesses and counterexamples.

/-- A sample configuration. -/
def cfg0 : EventConfig :=
  { activityName := "Summit", venue := "Hall", eventDate := "2025-01-01" }

/-- A sample persisted record with key 1. -/
def rec1 : Record :=
  { id := 1
    completeName := "Jane Doe"
    sex := "F"
    designation := "Engineer"
    division := "R&D"
    status := { pwd := false, senior := false, osy := false }
    signature := some "data:image/png;base64,AAA"
    timestamp := 100 }

/-- A persisted store holding `rec1`. -/
def store1 : Store := { nextId := 2, records := [rec1] }

/-- The app right after a successful initial load of `store1`. -/
def sBase : AppState := run [.load .ok] (initState store1 cfg0)

/-- The app after the first click on record 1's delete icon: per-record
confirmation pending. -/
def sPendDel : AppState :=
  run [.load .ok, .deleteClick 1 .ok .ok] (initState store1 cfg0)

/-- The app after the first click on "Clear All Records": bulk
confirmation pending. -/
def sPendClear : AppState :=
  run [.load .ok, .clearAllClick .ok .ok] (initState store1 cfg0)

/-- The event list leading to a completely filled form with a captured
signature. -/
def sFormEvents : List Event :=
  [.load .ok, .goto .form, .editText .completeName "Jane",
   .editText .designation "Eng", .editText .division "RD", .drawSig "sig1"]

/-- The app with a valid, fully filled form and captured signature. -/
def sForm : AppState := run sFormEvents (initState store1 cfg0)

-- ---------------------------------------------------------------------
-- Frame lemmas for `fetchRecords`
-- ---------------------------------------------------------------------

theorem fetchRecords_store (h : DBHealth) (s : AppState) :
    (fetchRecords h s).store = s.store := by
  unfold fetchRecords
  cases h
  · simp only [getAllRecords]; split <;> rfl
  · rfl
  · rfl

theorem fetchRecords_confirmClear (h : DBHealth) (s : AppState) :
    (fetchRecords h s).confirmClear = s.confirmClear := by
  unfold fetchRecords
  cases h
  · simp only [getAllRecords]; split <;> rfl
  · rfl
  · rfl

theorem fetchRecords_confirmDeleteId (h : DBHealth) (s : AppState) :
    (fetchRecords h s).confirmDeleteId = s.confirmDeleteId := by
  unfold fetchRecords
  cases h
  · simp only [getAllRecords]; split <;> rfl
  · rfl
  · rfl

theorem fetchRecords_formData (h : DBHealth) (s : AppState) :
    (fetchRecords h s).formData = s.formData := by
  unfold fetchRecords
  cases h
  · simp only [getAllRecords]; split <;> rfl
  · rfl
  · rfl

theorem fetchRecords_eventConfig (h : DBHealth) (s : AppState) :
    (fetchRecords h s).eventConfig = s.eventConfig := by
  unfold fetchRecords
  cases h
  · simp only [getAllRecords]; split <;> rfl
  · rfl
  · rfl

theorem fetchRecords_signatureCaptured (h : DBHealth) (s : AppState) :
    (fetchRecords h s).signatureCaptured = s.signatureCaptured := by
  unfold fetchRecords
  cases h
  · simp only [getAllRecords]; split <;> rfl
  · rfl
  · rfl

theorem fetchRecords_canvas (h : DBHealth) (s : AppState) :
    (fetchRecords h s).canvas = s.canvas := by
  unfold fetchRecords
  cases h
  · simp only [getAllRecords]; split <;> rfl
  · rfl
  · rfl

/-- C1: two-step per-record deletion.  For a ready app: (a) a delete
request for `X1` while no confirmation for `X1` is pending performs no
deletion — it only sets the warning message, makes `X1` pending and clears
the bulk confirmation; (b) a second request for the pending `X2` deletes
`X2` from the store; (c) if the 5-second timer fires first, the pending
state auto-resets with no deletion, and a later single request for `X2`
again only warns (no deletion, `X2` merely pending again). -/
theorem handleDelete_two_step (s1 s2 : AppState) (X1 X2 : Nat)
    (h hf : DBHealth)
    (hr1 : s1.isDBReady = true) (hr2 : s2.isDBReady = true)
    (hp1 : s1.confirmDeleteId ≠ some X1) (hp2 : s2.confirmDeleteId = some X2) :
    (step (.deleteClick X1 h hf) s1 =
      { s1 with message := deleteConfirmMessage (foundName s1.storedRecords X1)
                confirmDeleteId := some X1
                confirmClear := false }) ∧
    ((∀ r ∈ (step (.deleteClick X2 .ok .ok) s2).store.records, r.id ≠ X2) ∧
      (step (.deleteClick X2 .ok .ok) s2).store.records =
        s2.store.records.filter (fun r => r.id != X2)) ∧
    ((step .timeoutDelete s2).store = s2.store ∧
      (step .timeoutDelete s2).confirmDeleteId = none ∧
      (step (.deleteClick X2 h hf) (step .timeoutDelete s2)).store = s2.store ∧
      (step (.deleteClick X2 h hf) (step .timeoutDelete s2)).confirmDeleteId =
        some X2) := by
  have htd : step .timeoutDelete s2 =
      (if jsIncludes s2.message "Click the trash icon again" then
        { s2 with confirmDeleteId := none, message := "" }
      else { s2 with confirmDeleteId := none }) := by
    simp only [step, timeoutDeleteStep, hp2]
    simp
  refine ⟨?_, ?_, ?_⟩
  · simp only [step, handleDelete, hr1, if_true, if_neg hp1]
  · have hstep : step (.deleteClick X2 .ok .ok) s2 =
        fetchRecords .ok
          { s2 with store := { s2.store with
                      records := s2.store.records.filter (fun r => r.id != X2) }
                    message := IDB_DELETE_MESSAGE
                    confirmDeleteId := none } := by
      simp only [step, handleDelete, hr2, if_true, if_pos hp2, deleteRecord]
    rw [hstep, fetchRecords_store]
    refine ⟨?_, rfl⟩
    intro r hr
    have := (List.mem_filter.mp hr).2
    simpa using this
  · rw [htd]
    split
    · refine ⟨rfl, rfl, ?_, ?_⟩ <;>
        simp [step, handleDelete, hr2, deleteConfirmMessage]
    · refine ⟨rfl, rfl, ?_, ?_⟩ <;>
        simp [step, handleDelete, hr2, deleteConfirmMessage]

/-- Witness for `handleDelete_two_step`: concrete first click on record 1
(no deletion, pending set), confirming click (record removed), and
timeout-then-click (still no deletion, pending again). -/
theorem handleDelete_two_step_witness :
    (step (.deleteClick 1 .ok .ok) sBase =
      { sBase with
          message := deleteConfirmMessage (foundName sBase.storedRecords 1)
          confirmDeleteId := some 1
          confirmClear := false }) ∧
    (step (.deleteClick 1 .ok .ok) sPendDel).store.records =
      sPendDel.store.records.filter (fun r => r.id != 1) ∧
    (step .timeoutDelete sPendDel).confirmDeleteId = none ∧
    (step (.deleteClick 1 .ok .ok) (step .timeoutDelete sPendDel)).store =
      sPendDel.store ∧
    (step (.deleteClick 1 .ok .ok) (step .timeoutDelete sPendDel)).confirmDeleteId =
      some 1 := by
  have h := handleDelete_two_step sBase sPendDel 1 1 .ok .ok
    (by decide) (by decide) (by decide) (by decide)
  exact ⟨h.1, h.2.1.2, h.2.2.2.1, h.2.2.2.2.1, h.2.2.2.2.2⟩

-- ---------------------------------------------------------------------
-- The at-most-one-pending-confirmation invariant
-- ---------------------------------------------------------------------

/-- At most one of the bulk and per-record confirmations is pending. -/
def ConfirmExcl (s : AppState) : Prop :=
  s.confirmClear = true → s.confirmDeleteId = none

theorem step_preserves_confirmExcl (s : AppState) (e : Event)
    (hP : ConfirmExcl s) : ConfirmExcl (step e s) := by
  cases e with
  | load h =>
      intro hc
      rw [show step (.load h) s = fetchRecords h s from rfl,
        fetchRecords_confirmDeleteId]
      rw [show (step (.load h) s).confirmClear = s.confirmClear from
        fetchRecords_confirmClear h s] at hc
      exact hP hc
  | editText f v =>
      simp only [ConfirmExcl, step]
      split
      · intro _; rfl
      · exact hP
  | editSex male =>
      simp only [ConfirmExcl, step]
      split
      · intro _; rfl
      · exact hP
  | editStatus f b =>
      simp only [ConfirmExcl, step]
      split
      · intro _; rfl
      · exact hP
  | editConfig f v => exact hP
  | clearSig =>
      simp only [ConfirmExcl, step]
      split
      · exact hP
      · exact hP
  | drawSig d =>
      simp only [ConfirmExcl, step]
      split
      · exact hP
      · exact hP
  | submit h hf now =>
      simp only [ConfirmExcl, step, handleSubmit]
      split
      · exact hP
      · split
        · exact hP
        · split
          · exact hP
          · split
            · intro _; rfl
            · exact hP
  | deleteClick id h hf =>
      simp only [ConfirmExcl, step, handleDelete]
      split
      · split
        · split
          · intro _
            rw [fetchRecords_confirmDeleteId]
          · exact hP
        · intro hc; exact nomatch hc
      · exact hP
  | clearAllClick h hf =>
      simp only [ConfirmExcl, step, handleClearAll]
      split
      · split
        · split
          · intro _
            rw [fetchRecords_confirmDeleteId]
          · exact hP
        · intro _; rfl
      · exact hP
  | timeoutDelete =>
      simp only [ConfirmExcl, step, timeoutDeleteStep]
      split
      · split
        · intro _; rfl
        · intro _; rfl
      · exact hP
  | timeoutClear =>
      simp only [ConfirmExcl, step, timeoutClearStep]
      split
      · intro hc; exact nomatch hc
      · exact hP
  | timeoutMsg =>
      simp only [ConfirmExcl, step, timeoutMsgStep]
      split
      · exact hP
      · exact hP
  | goto p =>
      simp only [ConfirmExcl, step, gotoPage]
      cases p with
      | setup => exact hP
      | form => exact hP
      | records => intro _; rfl

/-- Any property preserved by every step holds along every run. -/
theorem run_preserves (P : AppState → Prop)
    (hstep : ∀ s e, P s → P (step e s)) :
    ∀ es s, P s → P (run es s) := by
  intro es
  induction es with
  | nil => intro s hs; exact hs
  | cons e es ih => intro s hs; exact ih _ (hstep s e hs)

/-- Records are removed from the store only by a second request for the
exact target whose confirmation is currently pending: if a stored record
disappears across a step, that step was a delete click on its own id while
that id was pending, or a clear-all click while the bulk confirmation was
pending. -/
theorem store_shrinks_only_by_confirmed (u : AppState) (e : Event) (r : Record)
    (hmem : r ∈ u.store.records) (hgone : r ∉ (step e u).store.records) :
    (∃ hd hfd, e = .deleteClick r.id hd hfd ∧ u.confirmDeleteId = some r.id) ∨
    (∃ hc hfc, e = .clearAllClick hc hfc ∧ u.confirmClear = true) := by
  cases e with
  | load h =>
      exfalso
      apply hgone
      show r ∈ (fetchRecords h u).store.records
      rw [fetchRecords_store]
      exact hmem
  | editText f v =>
      exfalso; revert hgone
      simp only [step]
      split <;> exact fun hg => hg hmem
  | editSex male =>
      exfalso; revert hgone
      simp only [step]
      split <;> exact fun hg => hg hmem
  | editStatus f b =>
      exfalso; revert hgone
      simp only [step]
      split <;> exact fun hg => hg hmem
  | editConfig f v => exact absurd hmem hgone
  | clearSig =>
      exfalso; revert hgone
      simp only [step]
      split <;> exact fun hg => hg hmem
  | drawSig d =>
      exfalso; revert hgone
      simp only [step]
      split <;> exact fun hg => hg hmem
  | submit h hf now =>
      exfalso; revert hgone
      simp only [step, handleSubmit]
      split
      · exact fun hg => hg hmem
      · split
        · exact fun hg => hg hmem
        · split
          · exact fun hg => hg hmem
          · cases h with
            | openFail => exact fun hg => hg hmem
            | opFail m => exact fun hg => hg hmem
            | ok =>
                intro hg
                apply hg
                show r ∈ (fetchRecords hf _).store.records
                rw [fetchRecords_store]
                show r ∈ u.store.records ++ [_]
                exact List.mem_append_left _ hmem
  | deleteClick id h hf =>
      revert hgone
      simp only [step, handleDelete]
      split
      · split
        · rename_i hpend
          split
          · rename_i st' hdel
            intro hg
            left
            have hst' : st' = { u.store with
                records := u.store.records.filter (fun x => x.id != id) } := by
              cases h with
              | ok => exact (Except.ok.injEq _ _ ▸ hdel.symm : _)
              | openFail => exact nomatch hdel
              | opFail m => exact nomatch hdel
            have hid : r.id = id := by
              by_cases hid : r.id = id
              · exact hid
              · exfalso
                apply hg
                show r ∈ (fetchRecords hf _).store.records
                rw [fetchRecords_store]
                show r ∈ st'.records
                rw [hst']
                exact List.mem_filter.mpr ⟨hmem, by simpa using hid⟩
            exact ⟨h, hf, by rw [hid], by rw [hid]; exact hpend⟩
          · exact fun hg => absurd hmem hg
        · exact fun hg => absurd hmem hg
      · exact fun hg => absurd hmem hg
  | clearAllClick h hf =>
      revert hgone
      simp only [step, handleClearAll]
      split
      · split
        · rename_i hclear
          split
          · intro _
            right
            exact ⟨h, hf, rfl, by simpa using hclear⟩
          · exact fun hg => absurd hmem hg
        · exact fun hg => absurd hmem hg
      · exact fun hg => absurd hmem hg
  | timeoutDelete =>
      exfalso; revert hgone
      simp only [step, timeoutDeleteStep]
      split
      · split <;> exact fun hg => hg hmem
      · exact fun hg => hg hmem
  | timeoutClear =>
      exfalso; revert hgone
      simp only [step, timeoutClearStep]
      split <;> exact fun hg => hg hmem
  | timeoutMsg =>
      exfalso; revert hgone
      simp only [step, timeoutMsgStep]
      split <;> exact fun hg => hg hmem
  | goto p =>
      exfalso; revert hgone
      cases p <;> exact fun hg => hg hmem

/-- C2: (a) in every reachable state at most one of the per-record and
bulk confirmations is pending; (b) a delete request naming a target that
is not the pending one replaces the pending target (new target pending,
bulk confirmation cleared) without touching the store; (c) a clear-all
request while the bulk confirmation is not pending makes it pending,
clears the per-record confirmation and does not touch the store; (d) a
record is deleted from the store only by a second request for the exact
same target while that target's confirmation is still pending. -/
theorem confirm_exclusivity_and_confirmed_deletion
    (store : Store) (cfg : EventConfig) (es : List Event)
    (s t u : AppState) (Y : Nat) (h hf h2 hf2 : DBHealth) (e : Event)
    (r : Record)
    (hA : (run es (initState store cfg)).confirmClear = true)
    (hrdy : s.isDBReady = true) (hne : s.confirmDeleteId ≠ some Y)
    (trdy : t.isDBReady = true) (tclear : t.confirmClear = false)
    (hmem : r ∈ u.store.records) (hgone : r ∉ (step e u).store.records) :
    (run es (initState store cfg)).confirmDeleteId = none ∧
    ((step (.deleteClick Y h hf) s).store = s.store ∧
      (step (.deleteClick Y h hf) s).confirmDeleteId = some Y ∧
      (step (.deleteClick Y h hf) s).confirmClear = false) ∧
    ((step (.clearAllClick h2 hf2) t).store = t.store ∧
      (step (.clearAllClick h2 hf2) t).confirmClear = true ∧
      (step (.clearAllClick h2 hf2) t).confirmDeleteId = none) ∧
    ((∃ hd hfd, e = .deleteClick r.id hd hfd ∧ u.confirmDeleteId = some r.id) ∨
      (∃ hc hfc, e = .clearAllClick hc hfc ∧ u.confirmClear = true)) := by
  refine ⟨?_, ?_, ?_, store_shrinks_only_by_confirmed u e r hmem hgone⟩
  · exact run_preserves ConfirmExcl step_preserves_confirmExcl es
      (initState store cfg) (fun hc => nomatch hc) hA
  · simp only [step, handleDelete, hrdy, if_true, if_neg hne]
    exact ⟨trivial, trivial, trivial⟩
  · have : ¬ (t.confirmClear = true) := by simp [tclear]
    simp only [step, handleClearAll, trdy, if_true, if_neg this]
    exact ⟨trivial, trivial, trivial⟩

/-- Witness for `confirm_exclusivity_and_confirmed_deletion` at concrete
reachable states: a pending-bulk run satisfies the exclusivity invariant,
a delete click on the non-pending id 1 replaces the target without
deletion, a first clear-all click deletes nothing, and the confirmed
delete click that removes `rec1` happened with `rec1.id` pending. -/
theorem confirm_exclusivity_witness :
    (run [.load .ok, .clearAllClick .ok .ok]
        (initState store1 cfg0)).confirmDeleteId = none ∧
    ((step (.deleteClick 1 .ok .ok) sBase).store = sBase.store ∧
      (step (.deleteClick 1 .ok .ok) sBase).confirmDeleteId = some 1 ∧
      (step (.deleteClick 1 .ok .ok) sBase).confirmClear = false) ∧
    ((step (.clearAllClick .ok .ok) sBase).store = sBase.store ∧
      (step (.clearAllClick .ok .ok) sBase).confirmClear = true ∧
      (step (.clearAllClick .ok .ok) sBase).confirmDeleteId = none) ∧
    ((∃ hd hfd, Event.deleteClick 1 .ok .ok = .deleteClick rec1.id hd hfd ∧
        sPendDel.confirmDeleteId = some rec1.id) ∨
      (∃ hc hfc, Event.deleteClick 1 .ok .ok = .clearAllClick hc hfc ∧
        sPendDel.confirmClear = true)) :=
  confirm_exclusivity_and_confirmed_deletion store1 cfg0
    [.load .ok, .clearAllClick .ok .ok] sBase sBase sPendDel 1
    .ok .ok .ok .ok (.deleteClick 1 .ok .ok) rec1
    (by decide) (by decide) (by decide) (by decide) (by decide)
    (by decide) (by decide)

/-- C6 counterexample: in the reachable state `sPendDel` (record 1's
confirmation pending), a confirming click whose `deleteRecord` call fails
with error message `"boom"` emits that message and leaves the collection
unchanged — but the confirmation state machine is NOT `Idle` afterwards:
record 1 is still pending (`some 1`, not `none`), contradicting the claim
that the machine is in `Idle` after a failed confirming call. -/
theorem failed_confirmation_counterexample :
    (step (.deleteClick 1 (.opFail "boom") .ok) sPendDel).message = "boom" ∧
    (step (.deleteClick 1 (.opFail "boom") .ok) sPendDel).store =
      sPendDel.store ∧
    (step (.deleteClick 1 (.opFail "boom") .ok) sPendDel).confirmDeleteId =
      some 1 ∧
    some 1 ≠ (none : Option Nat) := by decide

/-- C6 (amended): when the second (confirming) request's destructive
adapter call fails, the failure's error message is emitted (the
operation-specific fallback if that message is empty) and the stored
collection is unchanged by the failed call — but the confirmation is NOT
reset to `Idle`: the pending per-record id (resp. the pending bulk flag)
survives the failed call, until the timeout or another resetting
interaction clears it. -/
theorem failed_confirmation_keeps_pending
    (s t : AppState) (X : Nat) (h h2 hf hf2 : DBHealth) (m m2 : String)
    (hrdy : s.isDBReady = true) (hpend : s.confirmDeleteId = some X)
    (herr : deleteRecord h X s.store = .error m)
    (trdy : t.isDBReady = true) (tpend : t.confirmClear = true)
    (terr : deleteAllRecords h2 t.store = .error m2) :
    (step (.deleteClick X h hf) s).message =
      (if m = "" then "Error deleting record." else m) ∧
    (step (.deleteClick X h hf) s).confirmDeleteId = some X ∧
    (step (.deleteClick X h hf) s).store = s.store ∧
    (step (.clearAllClick h2 hf2) t).message =
      (if m2 = "" then "Error clearing all records." else m2) ∧
    (step (.clearAllClick h2 hf2) t).confirmClear = true ∧
    (step (.clearAllClick h2 hf2) t).store = t.store := by
  have hs : step (.deleteClick X h hf) s =
      { s with message := if m = "" then "Error deleting record." else m } := by
    simp only [step, handleDelete, hrdy, if_true, if_pos hpend, herr]
  have ht : step (.clearAllClick h2 hf2) t =
      { t with message := if m2 = "" then "Error clearing all records." else m2 } := by
    simp only [step, handleClearAll, trdy, if_true, if_pos tpend, terr]
  rw [hs, ht]
  exact ⟨rfl, hpend, rfl, rfl, tpend, rfl⟩

/-- Witness for `failed_confirmation_keeps_pending` at the reachable
pending states with failing destructive calls. -/
theorem failed_confirmation_keeps_pending_witness :
    (step (.deleteClick 1 .openFail .ok) sPendDel).message =
      (if IDB_ERROR_MESSAGE = "" then "Error deleting record."
       else IDB_ERROR_MESSAGE) ∧
    (step (.deleteClick 1 .openFail .ok) sPendDel).confirmDeleteId = some 1 ∧
    (step (.deleteClick 1 .openFail .ok) sPendDel).store = sPendDel.store ∧
    (step (.clearAllClick (.opFail "disk") .ok) sPendClear).message =
      (if "disk" = "" then "Error clearing all records." else "disk") ∧
    (step (.clearAllClick (.opFail "disk") .ok) sPendClear).confirmClear = true ∧
    (step (.clearAllClick (.opFail "disk") .ok) sPendClear).store =
      sPendClear.store :=
  failed_confirmation_keeps_pending sPendDel sPendClear 1 .openFail
    (.opFail "disk") .ok .ok IDB_ERROR_MESSAGE "disk"
    (by decide) (by decide) rfl (by decide) (by decide) rfl

/-- C7 counterexample: in the reachable state `sPendDel` (record 1's
confirmation pending, reached by a delete click on the records tab; the
user can then switch to the setup tab without resetting it), editing the
`venue` configuration field leaves the per-record confirmation pending
instead of forcing it to `Idle` as the claim requires for "any
configuration field change". -/
theorem config_edit_not_reset_counterexample :
    sPendDel.confirmDeleteId = some 1 ∧
    (step (.editConfig .venue "Hall B") sPendDel).confirmDeleteId = some 1 ∧
    some 1 ≠ (none : Option Nat) := by decide

/-- C7 (amended): while the app is ready, editing any form input — a free
text field, the sex radio group or a status checkbox — immediately forces
both confirmation instances to `Idle` without waiting for the timeout;
editing an event-configuration field, however, leaves both confirmation
states exactly as they were. -/
theorem form_edit_resets_confirmations
    (s : AppState) (f : TextField) (v : String) (male : Bool)
    (sf : StatusField) (b : Bool) (cf : ConfigField) (cv : String)
    (hrdy : s.isDBReady = true) :
    (step (.editText f v) s).confirmClear = false ∧
    (step (.editText f v) s).confirmDeleteId = none ∧
    (step (.editSex male) s).confirmClear = false ∧
    (step (.editSex male) s).confirmDeleteId = none ∧
    (step (.editStatus sf b) s).confirmClear = false ∧
    (step (.editStatus sf b) s).confirmDeleteId = none ∧
    (step (.editConfig cf cv) s).confirmClear = s.confirmClear ∧
    (step (.editConfig cf cv) s).confirmDeleteId = s.confirmDeleteId := by
  simp only [step, hrdy, if_true]
  exact ⟨rfl, rfl, rfl, rfl, rfl, rfl, rfl, rfl⟩

/-- Witness for `form_edit_resets_confirmations` at the reachable pending
state: a name edit resets the pending delete, a config edit keeps it. -/
theorem form_edit_resets_confirmations_witness :
    (step (.editText .completeName "Al") sPendDel).confirmDeleteId = none ∧
    (step (.editStatus .pwd true) sPendDel).confirmClear = false ∧
    (step (.editConfig .venue "B") sPendDel).confirmDeleteId =
      sPendDel.confirmDeleteId := by
  have h := form_edit_resets_confirmations sPendDel .completeName "Al" true
    .pwd true .venue "B" (by decide)
  exact ⟨h.2.1, h.2.2.2.2.1, h.2.2.2.2.2.2.2⟩

/-- The conditions under which `handleSubmit` reaches the adapter: the
three validated text fields are non-blank after trimming and a signature
is captured (the code never validates `sex`). -/
def validForm (s : AppState) : Prop :=
  jsTrim s.formData.completeName ≠ "" ∧ jsTrim s.formData.designation ≠ "" ∧
    jsTrim s.formData.division ≠ "" ∧ s.signatureCaptured = true

instance (s : AppState) : Decidable (validForm s) := by
  unfold validForm; infer_instance

/-- C8 counterexample: submitting a valid form (reachable state `sForm`)
while the `add` request itself fails with the underlying storage error
`"QuotaExceededError"` shows that raw error text to the user, not the
single generic message: the adapter `return`s the request promise from
inside `try` without `await`, so the rejection bypasses the `catch` that
would have converted it. -/
theorem adapter_error_not_generic_counterexample :
    (step (.submit (.opFail "QuotaExceededError") .ok 5) sForm).message =
      "QuotaExceededError" ∧
    "QuotaExceededError" ≠ IDB_ERROR_MESSAGE := by decide

/-- C8 (amended): every storage failure reaches the presentation layer as
a plain message string, but not always the single generic one:
`getAllRecords` failures of either kind are converted to the generic
`IDB_ERROR_MESSAGE` by `fetchRecords`; open-time failures of
`addRecord`/`deleteRecord`/`deleteAllRecords` are likewise converted to
the generic message; but a failure of the storage request itself
surfaces the underlying error's own message verbatim. -/
theorem storage_errors_shown_as_strings
    (s t u v : AppState) (X : Nat) (hl hf : DBHealth)
    (m1 m2 m3 : String) (now : Nat)
    (hlbad : hl ≠ .ok)
    (trdy : t.isDBReady = true) (tpend : t.confirmDeleteId = some X)
    (hm1 : m1 ≠ "")
    (urdy : u.isDBReady = true) (upend : u.confirmClear = true)
    (hm2 : m2 ≠ "")
    (hv : validForm v) (vrdy : v.isDBReady = true) (hm3 : m3 ≠ "") :
    (fetchRecords hl s).message = IDB_ERROR_MESSAGE ∧
    (step (.deleteClick X .openFail hf) t).message = IDB_ERROR_MESSAGE ∧
    (step (.deleteClick X (.opFail m1) hf) t).message = m1 ∧
    (step (.clearAllClick .openFail hf) u).message = IDB_ERROR_MESSAGE ∧
    (step (.clearAllClick (.opFail m2) hf) u).message = m2 ∧
    (step (.submit .openFail hf now) v).message = IDB_ERROR_MESSAGE ∧
    (step (.submit (.opFail m3) hf now) v).message = m3 := by
  obtain ⟨hv1, hv2, hv3, hv4⟩ := hv
  have hc1 : ¬ (jsTrim v.formData.completeName = "" ∨
      jsTrim v.formData.designation = "" ∨ jsTrim v.formData.division = "") := by
    rintro (hx | hx | hx)
    · exact hv1 hx
    · exact hv2 hx
    · exact hv3 hx
  refine ⟨?_, ?_, ?_, ?_, ?_, ?_, ?_⟩
  · unfold fetchRecords
    cases hl with
    | ok => exact absurd rfl hlbad
    | openFail => rfl
    | opFail m => rfl
  · simp only [step, handleDelete, trdy, if_true, if_pos tpend, deleteRecord]
    decide
  · simp only [step, handleDelete, trdy, if_true, if_pos tpend, deleteRecord,
      if_neg hm1]
  · simp only [step, handleClearAll, urdy, if_true, if_pos upend,
      deleteAllRecords]
    decide
  · simp only [step, handleClearAll, urdy, if_true, if_pos upend,
      deleteAllRecords, if_neg hm2]
  · simp only [step, handleSubmit, if_neg hc1, hv4, vrdy, Bool.not_true,
      Bool.false_eq_true, if_false, addRecord]
    decide
  · simp only [step, handleSubmit, if_neg hc1, hv4, vrdy, Bool.not_true,
      Bool.false_eq_true, if_false, addRecord, if_neg hm3]

/-- Witness for `storage_errors_shown_as_strings` at reachable states:
an initial load with a broken store, failed destructive calls on the
pending states, and failed submissions on the valid form. -/
theorem storage_errors_shown_as_strings_witness :
    (fetchRecords .openFail (initState store1 cfg0)).message =
      IDB_ERROR_MESSAGE ∧
    (step (.deleteClick 1 .openFail .ok) sPendDel).message =
      IDB_ERROR_MESSAGE ∧
    (step (.deleteClick 1 (.opFail "d1") .ok) sPendDel).message = "d1" ∧
    (step (.clearAllClick .openFail .ok) sPendClear).message =
      IDB_ERROR_MESSAGE ∧
    (step (.clearAllClick (.opFail "d2") .ok) sPendClear).message = "d2" ∧
    (step (.submit .openFail .ok 7) sForm).message = IDB_ERROR_MESSAGE ∧
    (step (.submit (.opFail "d3") .ok 7) sForm).message = "d3" :=
  storage_errors_shown_as_strings (initState store1 cfg0) sPendDel sPendClear
    sForm 1 .openFail .ok "d1" "d2" "d3" 7
    (by decide) (by decide) (by decide) (by decide) (by decide) (by decide)
    (by decide) (by decide) (by decide) (by decide)

/-- The `sex` field only ever holds the two radio values. -/
def SexOK (s : AppState) : Prop :=
  s.formData.sex = "M" ∨ s.formData.sex = "F"

theorem step_preserves_sexOK (s : AppState) (e : Event) (hP : SexOK s) :
    SexOK (step e s) := by
  cases e with
  | load h =>
      show SexOK (fetchRecords h s)
      unfold SexOK
      rw [fetchRecords_formData]
      exact hP
  | editText f v =>
      simp only [SexOK, step]
      split
      · cases f <;> exact hP
      · exact hP
  | editSex male =>
      simp only [SexOK, step]
      split
      · cases male
        · exact Or.inr rfl
        · exact Or.inl rfl
      · exact hP
  | editStatus f b =>
      simp only [SexOK, step]
      split
      · exact hP
      · exact hP
  | editConfig f v => exact hP
  | clearSig =>
      simp only [SexOK, step]
      split
      · exact hP
      · exact hP
  | drawSig d =>
      simp only [SexOK, step]
      split
      · exact hP
      · exact hP
  | submit h hf now =>
      simp only [SexOK, step, handleSubmit]
      split
      · exact hP
      · split
        · exact hP
        · split
          · exact hP
          · split
            · exact Or.inl (congrArg FormData.sex (fetchRecords_formData hf _))
            · exact hP
  | deleteClick id h hf =>
      simp only [SexOK, step, handleDelete]
      split
      · split
        · split
          · rw [show (fetchRecords hf _).formData.sex = _ from congrArg
              (fun fd => fd.sex) (fetchRecords_formData hf _)]
            exact hP
          · exact hP
        · exact hP
      · exact hP
  | clearAllClick h hf =>
      simp only [SexOK, step, handleClearAll]
      split
      · split
        · split
          · rw [show (fetchRecords hf _).formData.sex = _ from congrArg
              (fun fd => fd.sex) (fetchRecords_formData hf _)]
            exact hP
          · exact hP
        · exact hP
      · exact hP
  | timeoutDelete =>
      simp only [SexOK, step, timeoutDeleteStep]
      split
      · split
        · exact hP
        · exact hP
      · exact hP
  | timeoutClear =>
      simp only [SexOK, step, timeoutClearStep]
      split
      · exact hP
      · exact hP
  | timeoutMsg =>
      simp only [SexOK, step, timeoutMsgStep]
      split
      · exact hP
      · exact hP
  | goto p =>
      cases p <;> exact hP

/-- C9: (a) in every reachable state the `sex` radio value is `"M"` or
`"F"`, hence non-empty; (b) whenever `handleSubmit` actually invokes the
adapter's insert, the three validated text fields were non-blank after
trimming and the signature was captured; (c) when a required text field or
the signature is missing, the adapter is not invoked, the store is
unchanged and one of the two validation messages is produced. -/
theorem submit_validation_gates_adapter
    (store : Store) (cfg : EventConfig) (es : List Event)
    (s1 s2 : AppState) (h1 hf1 h2 hf2 : DBHealth) (n1 n2 : Nat)
    (hb : (handleSubmit h1 hf1 n1 s1).2 = true)
    (hmiss : jsTrim s2.formData.completeName = "" ∨
      jsTrim s2.formData.designation = "" ∨
      jsTrim s2.formData.division = "" ∨ s2.signatureCaptured = false) :
    ((run es (initState store cfg)).formData.sex = "M" ∨
      (run es (initState store cfg)).formData.sex = "F") ∧
    (jsTrim s1.formData.completeName ≠ "" ∧
      jsTrim s1.formData.designation ≠ "" ∧
      jsTrim s1.formData.division ≠ "" ∧ s1.signatureCaptured = true) ∧
    ((handleSubmit h2 hf2 n2 s2).2 = false ∧
      (handleSubmit h2 hf2 n2 s2).1.store = s2.store ∧
      ((handleSubmit h2 hf2 n2 s2).1.message =
          "Please fill in all required fields (indicated by *)." ∨
        (handleSubmit h2 hf2 n2 s2).1.message =
          "Please provide a signature in section 6.")) := by
  refine ⟨?_, ?_, ?_⟩
  · exact run_preserves SexOK step_preserves_sexOK es (initState store cfg)
      (Or.inl rfl)
  · by_cases hc1 : jsTrim s1.formData.completeName = "" ∨
        jsTrim s1.formData.designation = "" ∨ jsTrim s1.formData.division = ""
    · exfalso
      simp only [handleSubmit, if_pos hc1] at hb
      exact nomatch hb
    · rcases Decidable.em (s1.signatureCaptured = true) with hsig | hsig
      · push_neg at hc1
        exact ⟨hc1.1, hc1.2.1, hc1.2.2, hsig⟩
      · exfalso
        have hsig' : s1.signatureCaptured = false := by
          cases hx : s1.signatureCaptured
          · rfl
          · exact absurd hx hsig
        simp only [handleSubmit, if_neg hc1, hsig', Bool.not_false,
          if_true] at hb
        exact nomatch hb
  · by_cases hc1 : jsTrim s2.formData.completeName = "" ∨
        jsTrim s2.formData.designation = "" ∨ jsTrim s2.formData.division = ""
    · simp only [handleSubmit, if_pos hc1]
      exact ⟨trivial, trivial, Or.inl trivial⟩
    · have hsig : s2.signatureCaptured = false := by
        rcases hmiss with hx | hx | hx | hx
        · exact absurd (Or.inl hx) hc1
        · exact absurd (Or.inr (Or.inl hx)) hc1
        · exact absurd (Or.inr (Or.inr hx)) hc1
        · exact hx
      simp only [handleSubmit, if_neg hc1, hsig, Bool.not_false, if_true]
      exact ⟨trivial, trivial, Or.inr trivial⟩

/-- Witness for `submit_validation_gates_adapter`: the valid-form run
`sForm` does invoke the adapter, and the freshly loaded state `sBase`
(empty name) is rejected with the required-fields message and an
unchanged store. -/
theorem submit_validation_gates_adapter_witness :
    ((run sFormEvents (initState store1 cfg0)).formData.sex = "M" ∨
      (run sFormEvents (initState store1 cfg0)).formData.sex = "F") ∧
    (jsTrim sForm.formData.completeName ≠ "" ∧
      jsTrim sForm.formData.designation ≠ "" ∧
      jsTrim sForm.formData.division ≠ "" ∧
      sForm.signatureCaptured = true) ∧
    ((handleSubmit .ok .ok 9 sBase).2 = false ∧
      (handleSubmit .ok .ok 9 sBase).1.store = sBase.store ∧
      ((handleSubmit .ok .ok 9 sBase).1.message =
          "Please fill in all required fields (indicated by *)." ∨
        (handleSubmit .ok .ok 9 sBase).1.message =
          "Please provide a signature in section 6.")) :=
  submit_validation_gates_adapter store1 cfg0 sFormEvents sForm sBase
    .ok .ok .ok .ok 5 9 (by decide) (by decide)

/-- C10: after a successful submission (valid form, ready DB, insert
succeeds) the form state is reset to `initialFormData` (all text fields
empty, sex `'M'`, all three status flags false), the signature canvas is
cleared and the signature is no longer captured, both deletion
confirmations are forced to `Idle`, and the event configuration is
unchanged. -/
theorem submit_success_resets_form (s : AppState) (hf : DBHealth) (now : Nat)
    (hv : validForm s) (hrdy : s.isDBReady = true) :
    (handleSubmit .ok hf now s).2 = true ∧
    (handleSubmit .ok hf now s).1.formData = initialFormData ∧
    (handleSubmit .ok hf now s).1.signatureCaptured = false ∧
    (handleSubmit .ok hf now s).1.canvas = blankCanvasData ∧
    (handleSubmit .ok hf now s).1.confirmClear = false ∧
    (handleSubmit .ok hf now s).1.confirmDeleteId = none ∧
    (handleSubmit .ok hf now s).1.eventConfig = s.eventConfig := by
  obtain ⟨hv1, hv2, hv3, hv4⟩ := hv
  have hc1 : ¬ (jsTrim s.formData.completeName = "" ∨
      jsTrim s.formData.designation = "" ∨ jsTrim s.formData.division = "") := by
    rintro (hx | hx | hx)
    · exact hv1 hx
    · exact hv2 hx
    · exact hv3 hx
  simp only [handleSubmit, if_neg hc1, hv4, hrdy, Bool.not_true,
    Bool.false_eq_true, if_false, addRecord]
  exact ⟨trivial, fetchRecords_formData hf _, fetchRecords_signatureCaptured hf _,
    fetchRecords_canvas hf _, trivial, trivial, fetchRecords_eventConfig hf _⟩

/-- Witness for `submit_success_resets_form` at the concrete valid-form
run `sForm`. -/
theorem submit_success_resets_form_witness :
    (handleSubmit .ok .ok 5 sForm).2 = true ∧
    (handleSubmit .ok .ok 5 sForm).1.formData = initialFormData ∧
    (handleSubmit .ok .ok 5 sForm).1.signatureCaptured = false ∧
    (handleSubmit .ok .ok 5 sForm).1.canvas = blankCanvasData ∧
    (handleSubmit .ok .ok 5 sForm).1.confirmClear = false ∧
    (handleSubmit .ok .ok 5 sForm).1.confirmDeleteId = none ∧
    (handleSubmit .ok .ok 5 sForm).1.eventConfig = sForm.eventConfig :=
  submit_success_resets_form sForm .ok 5 (by decide) (by decide)

end Attendance
